import Mathlib

/-!
# Shallow embedding of the OCEAN address-resolution and route-sequencing core

This file embeds the per-feature address resolution loop, the reverse-geocode
cache, the duplicate-address removal and the route sorting of
`src/streamlit_app.py` (the "Process Buildings and Match/Geocode Addresses"
block, `fallback_sort`, the route-sorting dispatch and `drop_duplicates`) as
executable Lean definitions, and proves properties of them.

External collaborators (the rapidfuzz scorer, the Nominatim reverse geocoder,
pandas' `sort_values`) are modelled as parameters or by their documented
contracts; everything written by the repository itself is transcribed
branch-for-branch.
-/

namespace OceanApp

/-- One roster row of the uploaded CSV (`df`): columns
`address`, `member name`, `comment`. -/
structure RosterEntry where
  address : String
  member_name : String
  comment : String
deriving DecidableEq, Repr

/-- One building feature as it enters the per-feature loop: its centroid
coordinates (`geom.centroid.y` = lat, `geom.centroid.x` = lon), the composed
and stripped `osm_address` tag-derived string, and whether `geom.is_empty`. -/
structure Feature where
  lat : ℚ
  lon : ℚ
  addr : String
  geomEmpty : Bool
deriving DecidableEq, Repr

/-- One resolution record: the row data appended by the loop
(`flag`, `address` (resolved), `reverse_address` (the tag string),
`member name`, `comment`, `note`) plus the centroid it came from. -/
structure Record where
  flag : String
  address : String
  reverse_address : String
  member_name : String
  comment : String
  note : String
  lat : ℚ
  lon : ℚ
deriving DecidableEq, Repr

/-- `round5 q` models rounding a coordinate to 5 decimal places
(the `f"{v:.5f}"` formatting), as an integer number of 1e-5 units. -/
def round5 (q : ℚ) : ℤ := Int.fdiv (q.num * 200000 + (q.den : ℤ)) (2 * (q.den : ℤ))

/-- The geocode-cache key of a feature: its centroid rounded to 5 decimals,
latitude first (`f"{geom.centroid.y:.5f},{geom.centroid.x:.5f}"`). -/
def bucket (f : Feature) : ℤ × ℤ := (round5 f.lat, round5 f.lon)

/-- Python's `str.strip()`: drop leading and trailing whitespace. -/
def pyStrip (s : String) : String :=
  String.mk
    (((s.data.dropWhile Char.isWhitespace).reverse.dropWhile
      Char.isWhitespace).reverse)

/-- The in-run `address_cache`: an association list from rounded-coordinate
keys to stored resolved strings. -/
abbrev Cache : Type := List ((ℤ × ℤ) × String)

/-- Lookup in the `address_cache` (`key in address_cache` / `address_cache[key]`). -/
def cacheGet : Cache → (ℤ × ℤ) → Option String
  | [], _ => none
  | (k', v) :: c, k => if k' = k then some v else cacheGet c k

/-- The keys present in the cache. -/
def cacheKeys (c : Cache) : List (ℤ × ℤ) := c.map Prod.fst

/-- `rapidfuzz.process.extractOne(addr, choices, score_cutoff=85)`, with the
similarity scorer abstracted as a parameter: scans the choices in order,
keeps the current best match with score at least 85, replacing it only on a
strictly greater score (so the first of equal-scoring choices wins), and
returns the matched choice string, if any. -/
def bestAux (score : String → String → ℚ) (q : String) :
    List String → Option (String × ℚ) → Option (String × ℚ)
  | [], acc => acc
  | c :: cs, acc =>
    let s := score q c
    if 85 ≤ s then
      match acc with
      | none => bestAux score q cs (some (c, s))
      | some (b, bs) =>
        if bs < s then bestAux score q cs (some (c, s))
        else bestAux score q cs (some (b, bs))
    else bestAux score q cs acc

/-- The matched address returned by `process.extractOne`, if any. -/
def extractOne (score : String → String → ℚ) (q : String)
    (choices : List String) : Option String :=
  (bestAux score q choices none).map Prod.fst

/-- The matching step of the loop: only runs when a roster was uploaded and
the tag address is non-empty (`if df is not None and addr:`); on a fuzzy hit
takes the first roster row whose address equals the matched string
(`df[df["address"] == matched_address].head(1)`). -/
def matchEntry (roster : Option (List RosterEntry))
    (score : String → String → ℚ) (addr : String) : Option RosterEntry :=
  match roster with
  | none => none
  | some rows =>
    if addr = "" then none
    else
      match extractOne score addr (rows.map RosterEntry.address) with
      | none => none
      | some a => rows.find? (fun e => decide (e.address = a))

/-- The external reverse geocoder (`RateLimiter(geolocator.reverse, ...)`),
called on the precise centroid: it may raise (`.error msg`), return no
location (`.ok none`, printed as "Unknown"), or return an address. -/
abbrev Geo : Type := ℚ → ℚ → Except String (Option String)

/-- One iteration of the per-feature loop (the `try`/`except` body plus the
list appends): returns the appended record, the updated `address_cache`, and
the list of rounded-coordinate keys for which an external reverse-geocode
call was issued during this iteration (empty or a singleton). -/
def resolveFeature (roster : Option (List RosterEntry))
    (score : String → String → ℚ) (geo : Geo) (f : Feature) (cache : Cache) :
    Record × Cache × List (ℤ × ℤ) :=
  let addr := f.addr
  match matchEntry roster score addr with
  | some e =>
    -- `if addr and df is not None and not matched_row.empty:`
    ({ flag := "match", address := addr, reverse_address := addr,
       member_name := e.member_name, comment := e.comment,
       note := "Matched from CSV", lat := f.lat, lon := f.lon }, cache, [])
  | none =>
    if addr ≠ "" ∧ pyStrip addr ≠ "" then
      -- `elif addr and addr.strip() != "":` — reverse geocode the centroid
      let key := bucket f
      match cacheGet cache key with
      | some v =>
        ({ flag := "reverse", address := v, reverse_address := addr,
           member_name := "", comment := "", note := "Reverse geocoded",
           lat := f.lat, lon := f.lon }, cache, [])
      | none =>
        if f.geomEmpty then
          -- `if geom.is_empty or not isinstance(geom.centroid, Point):`
          ({ flag := "reverse", address := "Invalid geometry",
             reverse_address := addr, member_name := "", comment := "",
             note := "Reverse geocoded", lat := f.lat, lon := f.lon },
           (key, "Invalid geometry") :: cache, [])
        else
          match geo f.lat f.lon with
          | .error msg =>
            -- the external call raised: caught by the outer `except`,
            -- nothing is stored in the cache
            ({ flag := "fallback",
               address := if addr ≠ "" then "Fallback: " ++ addr
                          else "Fallback: N/A",
               reverse_address := addr, member_name := "", comment := "",
               note := "Exception: " ++ msg, lat := f.lat, lon := f.lon },
             cache, [key])
          | .ok loc =>
            let v := loc.getD "Unknown"
            ({ flag := "reverse", address := v, reverse_address := addr,
               member_name := "", comment := "", note := "Reverse geocoded",
               lat := f.lat, lon := f.lon }, (key, v) :: cache, [key])
    else
      -- `else:` — no tag-derived address at all
      ({ flag := "error", address := "No address", reverse_address := addr,
         member_name := "", comment := "",
         note := "No address data or building outline",
         lat := f.lat, lon := f.lon }, cache, [])

/-- The whole per-feature loop: every feature yields exactly one record, the
`address_cache` is threaded through, and the issued external-call keys are
collected in order. -/
def resolveAll (roster : Option (List RosterEntry))
    (score : String → String → ℚ) (geo : Geo) :
    List Feature → Cache → List Record × Cache × List (ℤ × ℤ)
  | [], c => ([], c, [])
  | f :: fs, c =>
    let r := resolveFeature roster score geo f c
    let rest := resolveAll roster score geo fs r.2.1
    (r.1 :: rest.1, rest.2.1, r.2.2 ++ rest.2.2)

/-- The `unique_addr` dedupe key of a record:
`row['address'] if row['address'] and row['address'] != '' else row['reverse_address']`. -/
def uniqueAddr (r : Record) : String :=
  if r.address ≠ "" then r.address else r.reverse_address

/-- Helper for `drop_duplicates`: keeps records whose `unique_addr` has not
been seen yet. -/
def dedupeAux : List Record → List String → List Record
  | [], _ => []
  | r :: rs, seen =>
    if uniqueAddr r ∈ seen then dedupeAux rs seen
    else r :: dedupeAux rs (uniqueAddr r :: seen)

/-- `buildings_gdf.drop_duplicates(subset=['unique_addr'], keep='first')`. -/
def drop_duplicates (rs : List Record) : List Record := dedupeAux rs []

/-! ## Route sorting

`sort_values` is a pandas call whose default `kind='quicksort'` is documented
as NOT stable, so it is modelled by its documented contract: the output is a
permutation of the input that is nondecreasing in the sort key. The shapely
`route_line.project` projection and the geometric distance are external, so
the sort key is a parameter. -/

/-- The output list is nondecreasing in the key. -/
abbrev SortedByKey (key : Record → ℚ) (l : List Record) : Prop :=
  l.Pairwise (fun a b => key a ≤ key b)

/-- The documented contract of `df.sort_values(column)` with the default
(unstable) kind: the result is a permutation of the rows, nondecreasing in
the column value. Tie order is unspecified. -/
def SortsTo (key : Record → ℚ) (input output : List Record) : Prop :=
  input.Perm output ∧ SortedByKey key output

/-- A sort is stable for a key exactly when each fibre of the key keeps the
input's relative order. -/
def StableOn (key : Record → ℚ) (input output : List Record) : Prop :=
  ∀ q : ℚ, output.filter (fun r => decide (key r = q)) =
    input.filter (fun r => decide (key r = q))

/-- A point of the drawing plane (x = lon, y = lat), as used by
`Point(start_point[1], start_point[0])` and `polygon.centroid`. -/
abbrev Pt : Type := ℚ × ℚ

/-- The squared Euclidean distance from a record's centroid to a point
(`gdf.geometry.centroid.distance(start_pt)`, squared; squaring is strictly
monotone on nonnegative distances, so sorting by it yields the same
`SortsTo` relation as sorting by the distance itself). -/
def distSq (r : Record) (p : Pt) : ℚ :=
  (r.lon - p.1) ^ 2 + (r.lat - p.2) ^ 2

/-- The start point `fallback_sort` measures distances from:
`start_pt = Point(...) if start_point else (polygon.centroid if polygon else None)`. -/
def fallbackTarget (startPt polyCentroid : Option Pt) : Option Pt :=
  match startPt with
  | some s => some s
  | none => polyCentroid

/-- The `fallback_sort` function as a relation between its input rows and its
output rows: with no start point and no polygon the frame is returned
unchanged; otherwise the rows are sorted by distance to the target point. -/
def FallbackSortRel (startPt polyCentroid : Option Pt)
    (input output : List Record) : Prop :=
  match fallbackTarget startPt polyCentroid with
  | none => output = input
  | some p => SortsTo (fun r => distSq r p) input output

/-- The route-sorting dispatch (`if route_line is not None: try ... except ...
else fallback_sort`), with `route_line.project` modelled as a fallible
external function `proj`.  `warned` records whether `st.warning` was shown.
When a route line exists and projecting every row succeeds, the rows are
sorted by projected arc length; if projecting any row raises, the handler
warns and falls back; with no route line, `fallback_sort` runs silently. -/
def RouteSortRel (routeProj : Option (Record → Except String ℚ))
    (startPt polyCentroid : Option Pt)
    (input output : List Record) (warned : Bool) : Prop :=
  match routeProj with
  | some proj =>
    ((∃ keyf : Record → ℚ, (∀ r ∈ input, proj r = .ok (keyf r)) ∧
        SortsTo keyf input output) ∧ warned = false) ∨
    ((∃ r ∈ input, ∃ m, proj r = .error m) ∧
        FallbackSortRel startPt polyCentroid input output ∧ warned = true)
  | none => FallbackSortRel startPt polyCentroid input output ∧ warned = false

/-! ## Lemmas about the model -/

/-- `round5` really is rounding to 5 decimal places: it equals
`⌊q * 100000 + 1/2⌋` — the integer form only keeps it kernel-computable. -/
theorem round5_eq (q : ℚ) : round5 q = ⌊(q * 100000 + 1 / 2 : ℚ)⌋ := by
  have hd0 : (0 : ℤ) ≤ 2 * (q.den : ℤ) := by positivity
  have hden : ((q.den : ℚ)) ≠ 0 := by
    exact_mod_cast q.den_nz
  have hq : (q.num : ℚ) = q * (q.den : ℚ) := by
    rw [← Rat.mul_den_eq_num]
  unfold round5
  rw [Int.fdiv_eq_ediv _ hd0]
  have h2 : (2 * (q.den : ℤ)) = ((2 * q.den : ℕ) : ℤ) := by push_cast; ring
  rw [h2, ← Rat.floor_intCast_div_natCast]
  congr 1
  push_cast
  field_simp
  linear_combination (400000 : ℚ) * hq

/-! ## Lemmas about `drop_duplicates` -/

theorem dedupeAux_sublist (rs : List Record) (seen : List String) :
    (dedupeAux rs seen).Sublist rs := by
  induction rs generalizing seen with
  | nil => simp [dedupeAux]
  | cons r rs ih =>
    simp only [dedupeAux]
    by_cases h : uniqueAddr r ∈ seen
    · simp only [if_pos h]
      exact (ih seen).trans (List.sublist_cons_self r rs)
    · simp only [if_neg h]
      exact (ih _).cons₂ r

theorem dedupeAux_not_seen (rs : List Record) (seen : List String) :
    ∀ r ∈ dedupeAux rs seen, uniqueAddr r ∉ seen := by
  induction rs generalizing seen with
  | nil => simp [dedupeAux]
  | cons a rs ih =>
    intro r hr
    simp only [dedupeAux] at hr
    by_cases h : uniqueAddr a ∈ seen
    · simp only [if_pos h] at hr
      exact ih seen r hr
    · simp only [if_neg h] at hr
      rcases List.mem_cons.mp hr with rfl | hr
      · exact h
      · have := ih (uniqueAddr a :: seen) r hr
        exact fun hc => this (List.mem_cons_of_mem _ hc)

theorem dedupeAux_keys_nodup (rs : List Record) (seen : List String) :
    ((dedupeAux rs seen).map uniqueAddr).Nodup := by
  induction rs generalizing seen with
  | nil => simp [dedupeAux]
  | cons a rs ih =>
    simp only [dedupeAux]
    by_cases h : uniqueAddr a ∈ seen
    · simp only [if_pos h]; exact ih seen
    · simp only [if_neg h, List.map_cons, List.nodup_cons]
      refine ⟨?_, ih _⟩
      intro hmem
      rcases List.mem_map.mp hmem with ⟨r, hr, hkey⟩
      have := dedupeAux_not_seen rs (uniqueAddr a :: seen) r hr
      exact this (hkey ▸ List.mem_cons_self _ _)

theorem dedupeAux_find? (rs : List Record) (seen : List String) (k : String)
    (hk : k ∉ seen) :
    (dedupeAux rs seen).find? (fun r => decide (uniqueAddr r = k)) =
      rs.find? (fun r => decide (uniqueAddr r = k)) := by
  induction rs generalizing seen with
  | nil => simp [dedupeAux]
  | cons a rs ih =>
    simp only [dedupeAux]
    by_cases h : uniqueAddr a ∈ seen
    · have hne : uniqueAddr a ≠ k := fun hc => hk (hc ▸ h)
      simp only [if_pos h, List.find?_cons, decide_eq_false hne]
      exact ih seen hk
    · simp only [if_neg h, List.find?_cons]
      by_cases hak : uniqueAddr a = k
      · simp only [decide_eq_true hak]
      · simp only [decide_eq_false hak]
        refine ih (uniqueAddr a :: seen) ?_
        intro hc
        rcases List.mem_cons.mp hc with hc | hc
        · exact hak hc.symm
        · exact hk hc

theorem dedupeAux_idem (rs : List Record) (seen : List String) :
    dedupeAux (dedupeAux rs seen) seen = dedupeAux rs seen := by
  induction rs generalizing seen with
  | nil => simp [dedupeAux]
  | cons a rs ih =>
    simp only [dedupeAux]
    by_cases h : uniqueAddr a ∈ seen
    · simp only [if_pos h]; exact ih seen
    · simp only [if_neg h, dedupeAux, if_neg h]
      rw [ih (uniqueAddr a :: seen)]

theorem dedupeAux_mem_key (rs : List Record) (seen : List String) :
    ∀ r ∈ rs, uniqueAddr r ∉ seen →
      ∃ r' ∈ dedupeAux rs seen, uniqueAddr r' = uniqueAddr r := by
  induction rs generalizing seen with
  | nil => simp
  | cons a rs ih =>
    intro r hr hseen
    simp only [dedupeAux]
    rcases List.mem_cons.mp hr with rfl | hr
    · simp only [if_neg hseen]
      exact ⟨r, List.mem_cons_self _ _, rfl⟩
    · by_cases h : uniqueAddr a ∈ seen
      · simp only [if_pos h]
        exact ih seen r hr hseen
      · simp only [if_neg h]
        by_cases hk : uniqueAddr r = uniqueAddr a
        · exact ⟨a, List.mem_cons_self _ _, hk.symm⟩
        · have : uniqueAddr r ∉ uniqueAddr a :: seen := by
            intro hc
            rcases List.mem_cons.mp hc with hc | hc
            · exact hk hc
            · exact hseen hc
          rcases ih (uniqueAddr a :: seen) r hr this with ⟨r', hr', hkey⟩
          exact ⟨r', List.mem_cons_of_mem _ hr', hkey⟩

/-- Spec-derived dedupe key, for comparison with `uniqueAddr` (§4.3 of the
spec): resolved address if non-empty, else the raw tag-derived address, else
the rounded centroid string. -/
def specDedupeKey (r : Record) : String :=
  if r.address ≠ "" then r.address
  else if r.reverse_address ≠ "" then r.reverse_address
  else toString (round5 r.lat) ++ "," ++ toString (round5 r.lon)

/-- Spec-derived dedupe helper mirroring `dedupeAux` but with `specDedupeKey`. -/
def specDedupeAux : List Record → List String → List Record
  | [], _ => []
  | r :: rs, seen =>
    if specDedupeKey r ∈ seen then specDedupeAux rs seen
    else r :: specDedupeAux rs (specDedupeKey r :: seen)

/-- Spec-derived deduplication: first record per `specDedupeKey` kept. -/
def specDedupe (rs : List Record) : List Record := specDedupeAux rs []

/-- A record with empty resolved and tag-derived address at centroid
`(lat, lon)`, used to separate the code's dedupe key from the spec's. -/
def blankRecordAt (lat lon : ℚ) : Record :=
  { flag := "error", address := "", reverse_address := "", member_name := "",
    comment := "", note := "", lat := lat, lon := lon }

/-- C6 (counterexample): the claim's dedupe key has a third fallback to the
rounded centroid string, but the code's `unique_addr` does not — two records
with empty resolved and tag addresses but different centroids share the
code's key (both empty), so `drop_duplicates` drops the second, while the
claim's key separates them and keeps both. -/
theorem C6_counterexample :
    drop_duplicates [blankRecordAt 0 0, blankRecordAt 1 1] =
      [blankRecordAt 0 0] ∧
    specDedupe [blankRecordAt 0 0, blankRecordAt 1 1] =
      [blankRecordAt 0 0, blankRecordAt 1 1] := by
  constructor <;> decide

/-- C6 (amended): `drop_duplicates` keeps exactly the first record per
`unique_addr` key — where the key is the resolved address if non-empty, else
the raw tag-derived address (with no centroid fallback) — preserving the
order of first occurrences: the output is a sublist of the input, its keys
are pairwise distinct, and for every key the first output record with that
key is the first input record with that key. -/
theorem C6_dedupe_first_per_key (X : List Record) :
    (drop_duplicates X).Sublist X ∧
    ((drop_duplicates X).map uniqueAddr).Nodup ∧
    ∀ k : String,
      (drop_duplicates X).find? (fun r => decide (uniqueAddr r = k)) =
        X.find? (fun r => decide (uniqueAddr r = k)) :=
  ⟨dedupeAux_sublist X [], dedupeAux_keys_nodup X [],
    fun k => dedupeAux_find? X [] k (List.not_mem_nil k)⟩

/-- C9: deduplication is idempotent and non-expanding:
`dedupe(dedupe(X)) = dedupe(X)` and `len(dedupe(X)) ≤ len(X)`. -/
theorem C9_dedupe_idempotent (X : List Record) :
    drop_duplicates (drop_duplicates X) = drop_duplicates X ∧
    (drop_duplicates X).length ≤ X.length :=
  ⟨dedupeAux_idem X [], (dedupeAux_sublist X []).length_le⟩

/-! ## The no-tag-address branch and its interaction with dedupe (C10) -/

/-- The record the loop emits for a feature with no tag-derived address. -/
def noAddressRecord (f : Feature) : Record :=
  { flag := "error", address := "No address", reverse_address := f.addr,
    member_name := "", comment := "",
    note := "No address data or building outline", lat := f.lat, lon := f.lon }

theorem resolveFeature_no_addr (roster : Option (List RosterEntry))
    (score : String → String → ℚ) (geo : Geo) (f : Feature) (c : Cache)
    (h : f.addr = "") :
    resolveFeature roster score geo f c = (noAddressRecord f, c, []) := by
  have hm : matchEntry roster score "" = none := by
    cases roster with
    | none => rfl
    | some rows => simp [matchEntry]
  simp [resolveFeature, h, hm, noAddressRecord]

theorem resolveAll_zip_no_addr (roster : Option (List RosterEntry))
    (score : String → String → ℚ) (geo : Geo) :
    ∀ (fs : List Feature) (c : Cache) (f : Feature) (r : Record),
      (f, r) ∈ fs.zip (resolveAll roster score geo fs c).1 → f.addr = "" →
      r = noAddressRecord f := by
  intro fs
  induction fs with
  | nil => intro c f r h _; simp [resolveAll] at h
  | cons f0 fs ih =>
    intro c f r h hf
    simp only [resolveAll, List.zip_cons_cons] at h
    rcases List.mem_cons.mp h with heq | htail
    · have h1 : f = f0 := congrArg Prod.fst heq
      have h2 : r = (resolveFeature roster score geo f0 c).1 :=
        congrArg Prod.snd heq
      subst h1
      rw [resolveFeature_no_addr roster score geo f c hf] at h2
      exact h2
    · exact ih _ f r htail hf

theorem drop_duplicates_no_address_count (X : List Record) :
    (drop_duplicates X).countP (fun r => decide (r.address = "No address")) ≤ 1 := by
  have h1 : (drop_duplicates X).countP
      (fun r => decide (r.address = "No address")) ≤
      (drop_duplicates X).countP (fun r => uniqueAddr r == "No address") := by
    refine List.countP_mono_left ?_
    intro r _ hr
    have ha : r.address = "No address" := of_decide_eq_true hr
    have : uniqueAddr r = "No address" := by
      simp [uniqueAddr, ha]
    simpa using this
  have h2 : (drop_duplicates X).countP (fun r => uniqueAddr r == "No address") =
      ((drop_duplicates X).map uniqueAddr).count "No address" := by
    rw [List.count, List.countP_map]
    rfl
  have h3 : ((drop_duplicates X).map uniqueAddr).count "No address" ≤ 1 :=
    List.nodup_iff_count_le_one.mp (dedupeAux_keys_nodup X []) _
  omega

/-- C10: every feature with an empty tag-derived address gets the identical
non-empty resolved string "No address" (flag "error"), and since the dedupe
key is the resolved address when non-empty, at most one record whose
resolved address is "No address" survives `drop_duplicates` — later
no-address features are dropped from the export. -/
theorem C10_no_address_collapse (roster : Option (List RosterEntry))
    (score : String → String → ℚ) (geo : Geo) (fs : List Feature) (c : Cache)
    (f : Feature) (r : Record)
    (hmem : (f, r) ∈ fs.zip (resolveAll roster score geo fs c).1)
    (hf : f.addr = "") :
    r.address = "No address" ∧ r.flag = "error" ∧
    (drop_duplicates (resolveAll roster score geo fs c).1).countP
      (fun x => decide (x.address = "No address")) ≤ 1 := by
  have hr := resolveAll_zip_no_addr roster score geo fs c f r hmem hf
  subst hr
  exact ⟨rfl, rfl, drop_duplicates_no_address_count _⟩

/-- Concrete witness for `C10_no_address_collapse`: a two-feature run where
both features lack tag addresses. -/
theorem C10_no_address_collapse_witness :
    ((⟨0, 0, "", false⟩ : Feature), noAddressRecord ⟨0, 0, "", false⟩) ∈
      [(⟨0, 0, "", false⟩ : Feature), ⟨1, 1, "", false⟩].zip
        (resolveAll none (fun _ _ => (0 : ℚ)) (fun _ _ => .ok none)
          [⟨0, 0, "", false⟩, ⟨1, 1, "", false⟩] []).1 ∧
    (noAddressRecord (⟨0, 0, "", false⟩ : Feature)).address = "No address" ∧
    (drop_duplicates (resolveAll none (fun _ _ => (0 : ℚ))
        (fun _ _ => .ok none) [⟨0, 0, "", false⟩, ⟨1, 1, "", false⟩] []).1).countP
      (fun x => decide (x.address = "No address")) ≤ 1 := by
  refine ⟨by decide, ?_, ?_⟩
  · exact (C10_no_address_collapse none (fun _ _ => (0 : ℚ))
      (fun _ _ => .ok none) [⟨0, 0, "", false⟩, ⟨1, 1, "", false⟩] []
      ⟨0, 0, "", false⟩ (noAddressRecord ⟨0, 0, "", false⟩)
      (by decide) (by decide)).1
  · exact (C10_no_address_collapse none (fun _ _ => (0 : ℚ))
      (fun _ _ => .ok none) [⟨0, 0, "", false⟩, ⟨1, 1, "", false⟩] []
      ⟨0, 0, "", false⟩ (noAddressRecord ⟨0, 0, "", false⟩)
      (by decide) (by decide)).2.2

/-! ## Branch lemmas for the per-feature loop -/

theorem resolveFeature_match (roster : Option (List RosterEntry))
    (score : String → String → ℚ) (geo : Geo) (f : Feature) (c : Cache)
    (e : RosterEntry) (hm : matchEntry roster score f.addr = some e) :
    resolveFeature roster score geo f c =
      ({ flag := "match", address := f.addr, reverse_address := f.addr,
         member_name := e.member_name, comment := e.comment,
         note := "Matched from CSV", lat := f.lat, lon := f.lon }, c, []) := by
  simp [resolveFeature, hm]

theorem resolveFeature_cache_hit (roster : Option (List RosterEntry))
    (score : String → String → ℚ) (geo : Geo) (f : Feature) (c : Cache)
    (v : String) (hm : matchEntry roster score f.addr = none)
    (ha : f.addr ≠ "") (ht : pyStrip f.addr ≠ "")
    (hc : cacheGet c (bucket f) = some v) :
    resolveFeature roster score geo f c =
      ({ flag := "reverse", address := v, reverse_address := f.addr,
         member_name := "", comment := "", note := "Reverse geocoded",
         lat := f.lat, lon := f.lon }, c, []) := by
  simp [resolveFeature, hm, ha, ht, hc]

theorem resolveFeature_miss_ok (roster : Option (List RosterEntry))
    (score : String → String → ℚ) (geo : Geo) (f : Feature) (c : Cache)
    (loc : Option String) (hm : matchEntry roster score f.addr = none)
    (ha : f.addr ≠ "") (ht : pyStrip f.addr ≠ "")
    (hc : cacheGet c (bucket f) = none) (hg : f.geomEmpty = false)
    (hgeo : geo f.lat f.lon = .ok loc) :
    resolveFeature roster score geo f c =
      ({ flag := "reverse", address := loc.getD "Unknown",
         reverse_address := f.addr, member_name := "", comment := "",
         note := "Reverse geocoded", lat := f.lat, lon := f.lon },
       (bucket f, loc.getD "Unknown") :: c, [bucket f]) := by
  simp [resolveFeature, hm, ha, ht, hc, hg, hgeo]

theorem resolveFeature_miss_fault (roster : Option (List RosterEntry))
    (score : String → String → ℚ) (geo : Geo) (f : Feature) (c : Cache)
    (msg : String) (hm : matchEntry roster score f.addr = none)
    (ha : f.addr ≠ "") (ht : pyStrip f.addr ≠ "")
    (hc : cacheGet c (bucket f) = none) (hg : f.geomEmpty = false)
    (hgeo : geo f.lat f.lon = .error msg) :
    resolveFeature roster score geo f c =
      ({ flag := "fallback", address := "Fallback: " ++ f.addr,
         reverse_address := f.addr, member_name := "", comment := "",
         note := "Exception: " ++ msg, lat := f.lat, lon := f.lon },
       c, [bucket f]) := by
  simp [resolveFeature, hm, ha, ht, hc, hg, hgeo]

theorem resolveFeature_miss_empty_geom (roster : Option (List RosterEntry))
    (score : String → String → ℚ) (geo : Geo) (f : Feature) (c : Cache)
    (hm : matchEntry roster score f.addr = none)
    (ha : f.addr ≠ "") (ht : pyStrip f.addr ≠ "")
    (hc : cacheGet c (bucket f) = none) (hg : f.geomEmpty = true) :
    resolveFeature roster score geo f c =
      ({ flag := "reverse", address := "Invalid geometry",
         reverse_address := f.addr, member_name := "", comment := "",
         note := "Reverse geocoded", lat := f.lat, lon := f.lon },
       (bucket f, "Invalid geometry") :: c, []) := by
  simp [resolveFeature, hm, ha, ht, hc, hg]

/-! ## `extractOne` facts -/

theorem bestAux_some (score : String → String → ℚ) (q : String) :
    ∀ (cs : List String) (acc : Option (String × ℚ)) (b : String) (s : ℚ),
      bestAux score q cs acc = some (b, s) →
      acc = some (b, s) ∨ (b ∈ cs ∧ s = score q b ∧ 85 ≤ s) := by
  intro cs
  induction cs with
  | nil => intro acc b s h; exact Or.inl h
  | cons c cs ih =>
    intro acc b s h
    simp only [bestAux] at h
    by_cases h85 : (85 : ℚ) ≤ score q c
    · rw [if_pos h85] at h
      cases acc with
      | none =>
        rcases ih _ b s h with hacc | hgood
        · have heq := Option.some.inj hacc
          have hb : b = c := (congrArg Prod.fst heq).symm
          have hs : s = score q c := (congrArg Prod.snd heq).symm
          subst hb
          exact Or.inr ⟨List.mem_cons_self _ _, hs, hs ▸ h85⟩
        · exact Or.inr ⟨List.mem_cons_of_mem _ hgood.1, hgood.2⟩
      | some p =>
        rcases p with ⟨b0, s0⟩
        dsimp only at h
        by_cases hlt : s0 < score q c
        · rw [if_pos hlt] at h
          rcases ih _ b s h with hacc | hgood
          · have hb : b = c := (congrArg Prod.fst (Option.some.inj hacc)).symm
            have hs : s = score q c :=
              (congrArg Prod.snd (Option.some.inj hacc)).symm
            subst hb
            exact Or.inr ⟨List.mem_cons_self _ _, hs, hs ▸ h85⟩
          · exact Or.inr ⟨List.mem_cons_of_mem _ hgood.1, hgood.2⟩
        · rw [if_neg hlt] at h
          rcases ih _ b s h with hacc | hgood
          · exact Or.inl hacc
          · exact Or.inr ⟨List.mem_cons_of_mem _ hgood.1, hgood.2⟩
    · rw [if_neg h85] at h
      rcases ih _ b s h with hacc | hgood
      · exact Or.inl hacc
      · exact Or.inr ⟨List.mem_cons_of_mem _ hgood.1, hgood.2⟩

/-- A returned match is one of the choices and scores at least the cutoff 85. -/
theorem extractOne_some (score : String → String → ℚ) (q : String)
    (cs : List String) (a : String)
    (h : extractOne score q cs = some a) :
    a ∈ cs ∧ 85 ≤ score q a := by
  simp only [extractOne, Option.map_eq_some'] at h
  rcases h with ⟨⟨b, s⟩, hb, hba⟩
  rcases bestAux_some score q cs none b s hb with hacc | hgood
  · exact absurd hacc (by simp)
  · rcases hgood with ⟨hmem, hs, h85⟩
    have : b = a := hba
    subst this
    exact ⟨hmem, hs ▸ h85⟩

/-! ## Claims C1, C2, C3, C5 -/

/-- C1 (counterexample): a feature whose tag-derived address "14 Elm St" has
no roster (so no match) is NOT emitted as `osm-only`/`partial` with the tag
address and no geocoding — the code reverse-geocodes it: the flag is
"reverse", the resolved address is the geocoder's answer, and one external
call is issued. -/
theorem C1_counterexample :
    (resolveFeature none (fun _ _ => (0 : ℚ))
        (fun _ _ => Except.ok (some "1 Geocoded Way"))
        ⟨0, 0, "14 Elm St", false⟩ []).1.flag = "reverse" ∧
    ¬ ((resolveFeature none (fun _ _ => (0 : ℚ))
          (fun _ _ => Except.ok (some "1 Geocoded Way"))
          ⟨0, 0, "14 Elm St", false⟩ []).1.address = "14 Elm St" ∧
        (resolveFeature none (fun _ _ => (0 : ℚ))
          (fun _ _ => Except.ok (some "1 Geocoded Way"))
          ⟨0, 0, "14 Elm St", false⟩ []).2.2 = []) := by
  decide

/-- C1 (amended): for a feature whose non-empty tag-derived address finds no
roster match (or no roster is supplied), the record carries no holder/note
and the resolver reverse-geocodes the centroid through the cache: on a cache
hit the resolved address is the stored value with no external call; on a
miss with valid geometry and a returning geocoder, one external call is
issued, its result stored under the bucket key and used as the resolved
address; in both cases the flag is "reverse" and the note "Reverse
geocoded". -/
theorem C1_unmatched_reverse_geocodes (roster : Option (List RosterEntry))
    (score : String → String → ℚ) (geo : Geo) (f : Feature) (c : Cache)
    (hm : matchEntry roster score f.addr = none)
    (ha : f.addr ≠ "") (ht : pyStrip f.addr ≠ "") :
    (∀ v, cacheGet c (bucket f) = some v →
      resolveFeature roster score geo f c =
        ({ flag := "reverse", address := v, reverse_address := f.addr,
           member_name := "", comment := "", note := "Reverse geocoded",
           lat := f.lat, lon := f.lon }, c, [])) ∧
    (cacheGet c (bucket f) = none → f.geomEmpty = false →
      ∀ loc, geo f.lat f.lon = .ok loc →
        resolveFeature roster score geo f c =
          ({ flag := "reverse", address := loc.getD "Unknown",
             reverse_address := f.addr, member_name := "", comment := "",
             note := "Reverse geocoded", lat := f.lat, lon := f.lon },
           (bucket f, loc.getD "Unknown") :: c, [bucket f])) := by
  constructor
  · intro v hc
    exact resolveFeature_cache_hit roster score geo f c v hm ha ht hc
  · intro hc hg loc hgeo
    exact resolveFeature_miss_ok roster score geo f c loc hm ha ht hc hg hgeo

/-- Concrete witness for `C1_unmatched_reverse_geocodes`: the cache-miss,
geocoder-succeeds case at a concrete feature. -/
theorem C1_unmatched_reverse_geocodes_witness :
    resolveFeature none (fun _ _ => (0 : ℚ))
        (fun _ _ => Except.ok (some "1 Geocoded Way"))
        ⟨0, 0, "14 Elm St", false⟩ [] =
      ({ flag := "reverse", address := "1 Geocoded Way",
         reverse_address := "14 Elm St", member_name := "", comment := "",
         note := "Reverse geocoded", lat := 0, lon := 0 },
       [((0, 0), "1 Geocoded Way")], [(0, 0)]) := by
  have h := (C1_unmatched_reverse_geocodes none (fun _ _ => (0 : ℚ))
      (fun _ _ => Except.ok (some "1 Geocoded Way"))
      ⟨0, 0, "14 Elm St", false⟩ [] (by decide) (by decide) (by decide)).2
      (by decide) (by decide) (some "1 Geocoded Way") rfl
  rw [h]
  decide

/-- C2 (counterexample): a feature with an empty tag-derived address and a
valid centroid is NOT reverse-geocoded — no external call is issued and the
record has flag "error" with the literal resolved string "No address". -/
theorem C2_counterexample :
    (resolveFeature none (fun _ _ => (0 : ℚ))
        (fun _ _ => Except.ok (some "1 Geocoded Way"))
        ⟨0, 0, "", false⟩ []).2.2 = [] ∧
    ¬ ((resolveFeature none (fun _ _ => (0 : ℚ))
          (fun _ _ => Except.ok (some "1 Geocoded Way"))
          ⟨0, 0, "", false⟩ []).1.flag = "reverse" ∧
        (resolveFeature none (fun _ _ => (0 : ℚ))
          (fun _ _ => Except.ok (some "1 Geocoded Way"))
          ⟨0, 0, "", false⟩ []).1.address = "1 Geocoded Way") := by
  decide

/-- C2 (amended): for every feature with an empty tag-derived address the
resolver performs no geocoding at all: the record is emitted with resolved
string "No address", flag "error", note "No address data or building
outline", the cache is untouched and no external call is issued. -/
theorem C2_empty_addr_no_geocode (roster : Option (List RosterEntry))
    (score : String → String → ℚ) (geo : Geo) (f : Feature) (c : Cache)
    (h : f.addr = "") :
    resolveFeature roster score geo f c =
      ({ flag := "error", address := "No address", reverse_address := f.addr,
         member_name := "", comment := "",
         note := "No address data or building outline",
         lat := f.lat, lon := f.lon }, c, []) :=
  resolveFeature_no_addr roster score geo f c h

/-- Concrete witness for `C2_empty_addr_no_geocode`. -/
theorem C2_empty_addr_no_geocode_witness :
    resolveFeature none (fun _ _ => (0 : ℚ))
        (fun _ _ => Except.ok (some "1 Geocoded Way")) ⟨0, 0, "", false⟩ [] =
      ({ flag := "error", address := "No address", reverse_address := "",
         member_name := "", comment := "",
         note := "No address data or building outline",
         lat := 0, lon := 0 }, [], []) :=
  C2_empty_addr_no_geocode none (fun _ _ => (0 : ℚ))
    (fun _ _ => Except.ok (some "1 Geocoded Way")) ⟨0, 0, "", false⟩ [] rfl

/-- C3 (counterexample): a feature whose tag address "12 Elm St" fuzzily
matches the roster entry "12 Elm Street" (score 90 ≥ 85) gets flag "match"
with the holder copied, but its resolved address is the TAG string, not the
roster's stored canonical address. -/
theorem C3_counterexample :
    (resolveFeature (some [⟨"12 Elm Street", "Ann Smith", "member"⟩])
        (fun a b => if a = b then (100 : ℚ) else 90)
        (fun _ _ => Except.ok none) ⟨0, 0, "12 Elm St", false⟩ []).1.flag =
      "match" ∧
    (resolveFeature (some [⟨"12 Elm Street", "Ann Smith", "member"⟩])
        (fun a b => if a = b then (100 : ℚ) else 90)
        (fun _ _ => Except.ok none)
        ⟨0, 0, "12 Elm St", false⟩ []).1.member_name = "Ann Smith" ∧
    ¬ ((resolveFeature (some [⟨"12 Elm Street", "Ann Smith", "member"⟩])
          (fun a b => if a = b then (100 : ℚ) else 90)
          (fun _ _ => Except.ok none)
          ⟨0, 0, "12 Elm St", false⟩ []).1.address = "12 Elm Street") := by
  decide

/-- C3 (amended): when the matching step finds a roster entry (the fuzzy
match scores at least 85 and the entry is the first roster row whose stored
address equals the matched string), the record has flag "match", holder and
note copied from that entry, and its resolved address is the TAG-derived
string (not the roster's stored address); no geocoding is performed and the
cache is untouched. -/
theorem C3_match_keeps_tag_address (rows : List RosterEntry)
    (score : String → String → ℚ) (geo : Geo) (f : Feature) (c : Cache)
    (e : RosterEntry)
    (hm : matchEntry (some rows) score f.addr = some e) :
    resolveFeature (some rows) score geo f c =
      ({ flag := "match", address := f.addr, reverse_address := f.addr,
         member_name := e.member_name, comment := e.comment,
         note := "Matched from CSV", lat := f.lat, lon := f.lon }, c, []) ∧
    ∃ a, extractOne score f.addr (rows.map RosterEntry.address) = some a ∧
      85 ≤ score f.addr a ∧ a ∈ rows.map RosterEntry.address ∧
      rows.find? (fun x => decide (x.address = a)) = some e := by
  refine ⟨resolveFeature_match _ score geo f c e hm, ?_⟩
  unfold matchEntry at hm
  dsimp only at hm
  by_cases ha : f.addr = ""
  · rw [if_pos ha] at hm; exact absurd hm (by simp)
  · rw [if_neg ha] at hm
    cases hx : extractOne score f.addr (rows.map RosterEntry.address) with
    | none => rw [hx] at hm; exact absurd hm (by simp)
    | some a =>
      rw [hx] at hm
      have hmem := extractOne_some score f.addr
        (rows.map RosterEntry.address) a hx
      exact ⟨a, rfl, hmem.2, hmem.1, hm⟩

/-- Concrete witness for `C3_match_keeps_tag_address`. -/
theorem C3_match_keeps_tag_address_witness :
    resolveFeature (some [⟨"12 Elm Street", "Ann Smith", "member"⟩])
        (fun a b => if a = b then (100 : ℚ) else 90)
        (fun _ _ => Except.ok none) ⟨0, 0, "12 Elm St", false⟩ [] =
      ({ flag := "match", address := "12 Elm St",
         reverse_address := "12 Elm St", member_name := "Ann Smith",
         comment := "member", note := "Matched from CSV",
         lat := 0, lon := 0 }, [], []) :=
  (C3_match_keeps_tag_address [⟨"12 Elm Street", "Ann Smith", "member"⟩]
    (fun a b => if a = b then (100 : ℚ) else 90) (fun _ _ => Except.ok none)
    ⟨0, 0, "12 Elm St", false⟩ [] ⟨"12 Elm Street", "Ann Smith", "member"⟩
    (by decide)).1

/-- Every feature yields exactly one record: no per-feature failure shortens
the run. -/
theorem resolveAll_length (roster : Option (List RosterEntry))
    (score : String → String → ℚ) (geo : Geo) :
    ∀ (fs : List Feature) (c : Cache),
      (resolveAll roster score geo fs c).1.length = fs.length := by
  intro fs
  induction fs with
  | nil => intro c; rfl
  | cons f fs ih =>
    intro c
    simp only [resolveAll, List.length_cons]
    rw [ih]

/-- C5 (counterexample): when the geocoder raises, the per-feature handler
emits a record whose flag is "fallback", NOT "error" (the flag "error" is
used by the no-address branch instead). -/
theorem C5_counterexample :
    (resolveFeature none (fun _ _ => (0 : ℚ))
        (fun _ _ => Except.error "geocoder timed out")
        ⟨0, 0, "14 Elm St", false⟩ []).1.flag = "fallback" ∧
    ¬ ((resolveFeature none (fun _ _ => (0 : ℚ))
          (fun _ _ => Except.error "geocoder timed out")
          ⟨0, 0, "14 Elm St", false⟩ []).1.flag = "error") := by
  decide

/-- C5 (amended): a fault raised by the geocoding step is caught at the
per-feature boundary and converted into a record with flag "fallback" whose
note carries the fault description ("Exception: ...") and whose resolved
address is "Fallback: " followed by the tag address; nothing is stored in
the cache, and processing continues — every feature of any run yields
exactly one record. -/
theorem C5_fault_fallback_record (roster : Option (List RosterEntry))
    (score : String → String → ℚ) (geo : Geo) (f : Feature) (c : Cache)
    (msg : String) (fs : List Feature) (c0 : Cache)
    (hm : matchEntry roster score f.addr = none)
    (ha : f.addr ≠ "") (ht : pyStrip f.addr ≠ "")
    (hc : cacheGet c (bucket f) = none) (hg : f.geomEmpty = false)
    (hgeo : geo f.lat f.lon = .error msg) :
    resolveFeature roster score geo f c =
      ({ flag := "fallback", address := "Fallback: " ++ f.addr,
         reverse_address := f.addr, member_name := "", comment := "",
         note := "Exception: " ++ msg, lat := f.lat, lon := f.lon },
       c, [bucket f]) ∧
    (resolveAll roster score geo fs c0).1.length = fs.length :=
  ⟨resolveFeature_miss_fault roster score geo f c msg hm ha ht hc hg hgeo,
    resolveAll_length roster score geo fs c0⟩

/-- Concrete witness for `C5_fault_fallback_record`: a two-feature run whose
first feature's geocode call raises; the run still yields two records. -/
theorem C5_fault_fallback_record_witness :
    resolveFeature none (fun _ _ => (0 : ℚ))
        (fun _ _ => Except.error "geocoder timed out")
        ⟨0, 0, "14 Elm St", false⟩ [] =
      ({ flag := "fallback", address := "Fallback: 14 Elm St",
         reverse_address := "14 Elm St", member_name := "", comment := "",
         note := "Exception: geocoder timed out", lat := 0, lon := 0 },
       [], [(0, 0)]) ∧
    (resolveAll none (fun _ _ => (0 : ℚ))
        (fun _ _ => Except.error "geocoder timed out")
        [⟨0, 0, "14 Elm St", false⟩, ⟨1, 1, "", false⟩] []).1.length = 2 := by
  have h := C5_fault_fallback_record none (fun _ _ => (0 : ℚ))
    (fun _ _ => Except.error "geocoder timed out")
    ⟨0, 0, "14 Elm St", false⟩ [] "geocoder timed out"
    [⟨0, 0, "14 Elm St", false⟩, ⟨1, 1, "", false⟩] []
    (by decide) (by decide) (by decide) (by decide) (by decide) rfl
  refine ⟨?_, h.2⟩
  rw [h.1]
  decide

/-! ## Claim C4: the geocode cache bounds external calls -/

theorem cacheGet_none_iff (c : Cache) (k : ℤ × ℤ) :
    cacheGet c k = none ↔ k ∉ cacheKeys c := by
  induction c with
  | nil => simp [cacheGet, cacheKeys]
  | cons p c ih =>
    rcases p with ⟨k', v⟩
    simp only [cacheGet, cacheKeys, List.map_cons, List.mem_cons]
    by_cases h : k' = k
    · simp [h]
    · simp only [if_neg h, ih, cacheKeys]
      constructor
      · intro hn hc
        rcases hc with hc | hc
        · exact h hc.symm
        · exact hn hc
      · intro hn hc
        exact hn (Or.inr hc)

/-- The else branch of the loop when the roster match fails and the
tag-address test fails. -/
theorem resolveFeature_else (roster : Option (List RosterEntry))
    (score : String → String → ℚ) (geo : Geo) (f : Feature) (c : Cache)
    (hm : matchEntry roster score f.addr = none)
    (hcond : ¬(f.addr ≠ "" ∧ pyStrip f.addr ≠ "")) :
    resolveFeature roster score geo f c =
      ({ flag := "error", address := "No address", reverse_address := f.addr,
         member_name := "", comment := "",
         note := "No address data or building outline",
         lat := f.lat, lon := f.lon }, c, []) := by
  simp only [resolveFeature, hm, if_neg hcond]

/-- In one loop iteration with a non-faulting geocoder, either no external
call is made (and cache keys only grow), or exactly the feature's bucket is
called once — and only when it was not yet cached, after which it is. -/
theorem resolveFeature_cache_step (roster : Option (List RosterEntry))
    (score : String → String → ℚ) (geo : Geo) (f : Feature) (c : Cache)
    (hgeo : ∀ m, geo f.lat f.lon ≠ .error m) :
    ((resolveFeature roster score geo f c).2.2 = [] ∧
      ((resolveFeature roster score geo f c).2.1 = c ∨
        ∃ v, (resolveFeature roster score geo f c).2.1 = (bucket f, v) :: c)) ∨
    ((resolveFeature roster score geo f c).2.2 = [bucket f] ∧
      cacheGet c (bucket f) = none ∧
      ∃ v, (resolveFeature roster score geo f c).2.1 = (bucket f, v) :: c) := by
  cases hm : matchEntry roster score f.addr with
  | some e =>
    rw [resolveFeature_match roster score geo f c e hm]
    exact Or.inl ⟨rfl, Or.inl rfl⟩
  | none =>
    by_cases hcond : f.addr ≠ "" ∧ pyStrip f.addr ≠ ""
    · rcases hcond with ⟨ha, ht⟩
      cases hc : cacheGet c (bucket f) with
      | some v =>
        rw [resolveFeature_cache_hit roster score geo f c v hm ha ht hc]
        exact Or.inl ⟨rfl, Or.inl rfl⟩
      | none =>
        cases hg : f.geomEmpty with
        | true =>
          rw [resolveFeature_miss_empty_geom roster score geo f c hm ha ht hc hg]
          exact Or.inl ⟨rfl, Or.inr ⟨"Invalid geometry", rfl⟩⟩
        | false =>
          cases hx : geo f.lat f.lon with
          | error m => exact absurd hx (hgeo m)
          | ok loc =>
            rw [resolveFeature_miss_ok roster score geo f c loc hm ha ht hc hg hx]
            exact Or.inr ⟨rfl, rfl, loc.getD "Unknown", rfl⟩
    · rw [resolveFeature_else roster score geo f c hm hcond]
      exact Or.inl ⟨rfl, Or.inl rfl⟩

/-- Run-level call bound for a non-faulting geocoder: each bucket is called
at most once, and never if it is already cached. -/
theorem resolveAll_calls_bound (roster : Option (List RosterEntry))
    (score : String → String → ℚ) (geo : Geo)
    (hgeo : ∀ a b m, geo a b ≠ .error m) :
    ∀ (fs : List Feature) (c : Cache) (k : ℤ × ℤ),
      (resolveAll roster score geo fs c).2.2.countP (fun x => decide (x = k)) ≤
        if k ∈ cacheKeys c then 0 else 1 := by
  intro fs
  induction fs with
  | nil => intro c k; simp [resolveAll]
  | cons f fs ih =>
    intro c k
    simp only [resolveAll, List.countP_append]
    rcases resolveFeature_cache_step roster score geo f c
        (fun m => hgeo f.lat f.lon m) with
      ⟨hcalls, hcache⟩ | ⟨hcalls, hnone, v, hcache⟩
    · rw [hcalls]
      simp only [List.countP_nil, Nat.zero_add]
      rcases hcache with hcache | ⟨v, hcache⟩
      · rw [hcache]; exact ih c k
      · rw [hcache]
        refine le_trans (ih ((bucket f, v) :: c) k) ?_
        by_cases hk : k ∈ cacheKeys c
        · have hkc : k ∈ cacheKeys ((bucket f, v) :: c) := by
            simp only [cacheKeys, List.map_cons, List.mem_cons]
            exact Or.inr hk
          rw [if_pos hkc, if_pos hk]
        · by_cases hkb : k ∈ cacheKeys ((bucket f, v) :: c)
          · simp only [if_pos hkb, if_neg hk]; omega
          · simp only [if_neg hkb, if_neg hk]; omega
    · rw [hcalls, hcache]
      by_cases hkb : k = bucket f
      · rw [hkb]
        have hk0 : bucket f ∉ cacheKeys c :=
          (cacheGet_none_iff c (bucket f)).mp hnone
        rw [if_neg hk0]
        have hrest := ih ((bucket f, v) :: c) (bucket f)
        have hmem : bucket f ∈ cacheKeys ((bucket f, v) :: c) := by
          simp [cacheKeys]
        rw [if_pos hmem] at hrest
        have hone : List.countP (fun x => decide (x = bucket f)) [bucket f] = 1 := by
          simp
        omega
      · have h1 : ([bucket f].countP (fun x => decide (x = k))) = 0 := by
          simp only [List.countP_cons, List.countP_nil]
          rw [decide_eq_false (fun hc => hkb hc.symm)]
          rfl
        rw [h1]
        have hrest := ih ((bucket f, v) :: c) k
        have hiff : k ∈ cacheKeys ((bucket f, v) :: c) ↔ k ∈ cacheKeys c := by
          simp only [cacheKeys, List.map_cons, List.mem_cons]
          constructor
          · intro h
            rcases h with h | h
            · exact absurd h hkb
            · exact h
          · exact fun h => Or.inr h
        by_cases hk : k ∈ cacheKeys c
        · rw [if_pos hk]
          rw [if_pos (hiff.mpr hk)] at hrest
          omega
        · rw [if_neg hk]
          rw [if_neg (fun h => hk (hiff.mp h))] at hrest
          omega

/-- C4 (counterexample): when the external geocode call raises, its result is
NOT stored under the bucket key, so two same-bucket features each issue an
external call — two calls for one distinct rounded-coordinate bucket within
one run, and the cache stays empty. -/
theorem C4_counterexample :
    (resolveAll none (fun _ _ => (0 : ℚ))
        (fun _ _ => Except.error "geocoder timed out")
        [⟨0, 0, "14 Elm St", false⟩, ⟨0, 0, "16 Elm St", false⟩] []).2.2.countP
      (fun x => decide (x = ((0 : ℤ), (0 : ℤ)))) = 2 ∧
    (resolveAll none (fun _ _ => (0 : ℚ))
        (fun _ _ => Except.error "geocoder timed out")
        [⟨0, 0, "14 Elm St", false⟩, ⟨0, 0, "16 Elm St", false⟩] []).2.1 = [] := by
  decide

/-- C4 (amended): a cache hit returns the stored value (whatever string was
recorded) with no external call, and — provided no geocode call raises —
a run issues at most one external reverse-geocode call per distinct
5-decimal rounded coordinate bucket, and none for buckets already cached.
(A raising call stores nothing, so a later same-bucket miss calls again.) -/
theorem C4_cache_bounds_calls (roster : Option (List RosterEntry))
    (score : String → String → ℚ) (geo : Geo)
    (hgeo : ∀ a b m, geo a b ≠ .error m) (fs : List Feature) (c0 : Cache)
    (k : ℤ × ℤ) :
    ((resolveAll roster score geo fs c0).2.2.countP
        (fun x => decide (x = k)) ≤ 1) ∧
    (k ∈ cacheKeys c0 →
      (resolveAll roster score geo fs c0).2.2.countP
        (fun x => decide (x = k)) = 0) ∧
    (∀ (f : Feature) (c : Cache) (v : String),
      matchEntry roster score f.addr = none → f.addr ≠ "" →
      pyStrip f.addr ≠ "" → cacheGet c (bucket f) = some v →
      resolveFeature roster score geo f c =
        ({ flag := "reverse", address := v, reverse_address := f.addr,
           member_name := "", comment := "", note := "Reverse geocoded",
           lat := f.lat, lon := f.lon }, c, [])) := by
  have h := resolveAll_calls_bound roster score geo hgeo fs c0 k
  refine ⟨?_, ?_, ?_⟩
  · by_cases hk : k ∈ cacheKeys c0
    · rw [if_pos hk] at h; omega
    · rw [if_neg hk] at h; omega
  · intro hk
    rw [if_pos hk] at h
    omega
  · intro f c v hm ha ht hc
    exact resolveFeature_cache_hit roster score geo f c v hm ha ht hc

/-- Concrete witness for `C4_cache_bounds_calls`: two same-bucket features
with a non-faulting geocoder issue at most one call, and a pre-cached bucket
issues none and is served from the cache. -/
theorem C4_cache_bounds_calls_witness :
    ((resolveAll none (fun _ _ => (0 : ℚ))
        (fun _ _ => Except.ok (some "1 Geocoded Way"))
        [⟨0, 0, "14 Elm St", false⟩, ⟨0, 0, "16 Elm St", false⟩] []).2.2.countP
      (fun x => decide (x = ((0 : ℤ), (0 : ℤ)))) ≤ 1) ∧
    resolveFeature none (fun _ _ => (0 : ℚ))
        (fun _ _ => Except.ok (some "1 Geocoded Way"))
        ⟨0, 0, "16 Elm St", false⟩ [((0, 0), "stored failure")] =
      ({ flag := "reverse", address := "stored failure",
         reverse_address := "16 Elm St", member_name := "", comment := "",
         note := "Reverse geocoded", lat := 0, lon := 0 },
       [((0, 0), "stored failure")], []) := by
  have h := C4_cache_bounds_calls none (fun _ _ => (0 : ℚ))
    (fun _ _ => Except.ok (some "1 Geocoded Way"))
    (fun a b m h => by simp at h)
    [⟨0, 0, "14 Elm St", false⟩, ⟨0, 0, "16 Elm St", false⟩] []
    ((0 : ℤ), (0 : ℤ))
  exact ⟨h.1, h.2.2 ⟨0, 0, "16 Elm St", false⟩ [((0, 0), "stored failure")]
    "stored failure" (by decide) (by decide) (by decide) (by decide)⟩

/-! ## Claims C7 and C8: route sorting -/

/-- Two records that differ only in their note, sharing one projection
value under a constant key. -/
def tieRecordA : Record :=
  { flag := "reverse", address := "10 Oak St", reverse_address := "10 Oak St",
    member_name := "", comment := "", note := "first", lat := 0, lon := 0 }

/-- See `tieRecordA`. -/
def tieRecordB : Record :=
  { flag := "reverse", address := "12 Oak St", reverse_address := "12 Oak St",
    member_name := "", comment := "", note := "second", lat := 0, lon := 0 }

/-- C7 (counterexample): `sort_values` with its default (unstable) kind only
promises a key-sorted permutation, and a tie-swapping output satisfies that
contract: with two distinct stops of equal projection, the reversed list is
a valid sort output but does not preserve the input's relative tie order,
so stability does not hold for the code's sort. -/
theorem C7_counterexample :
    SortsTo (fun _ => (0 : ℚ)) [tieRecordA, tieRecordB]
      [tieRecordB, tieRecordA] ∧
    ¬ StableOn (fun _ => (0 : ℚ)) [tieRecordA, tieRecordB]
      [tieRecordB, tieRecordA] := by
  constructor
  · exact ⟨List.Perm.swap tieRecordB tieRecordA [], by decide⟩
  · intro h
    have h0 := h 0
    revert h0
    decide

/-- C7 (amended): route-line projection ordering is monotonic in the
projected arc length: for any output the sort contract admits, if stop A's
projection is strictly less than stop B's, then A precedes B; the order of
equal-projection stops is unspecified. -/
theorem C7_projection_monotone (key : Record → ℚ)
    (input output : List Record) (h : SortsTo key input output) :
    ∀ i j : Fin output.length,
      key (output.get i) < key (output.get j) → (i : ℕ) < (j : ℕ) := by
  intro i j hij
  rcases h with ⟨_, hsorted⟩
  by_contra hnot
  rcases Nat.lt_or_ge (j : ℕ) (i : ℕ) with hji | hij2
  · have := List.pairwise_iff_get.mp hsorted j i (Fin.mk_lt_mk.mpr hji)
    exact absurd hij (not_lt_of_le this)
  · have : (i : ℕ) = (j : ℕ) := le_antisymm hij2 (Nat.not_lt.mp hnot)
    have : i = j := Fin.ext this
    subst this
    exact lt_irrefl _ hij

/-- Concrete witness for `C7_projection_monotone`: a two-stop sorted output
with distinct projection values, instantiated at the two positions. -/
theorem C7_projection_monotone_witness :
    SortsTo (fun r => if r.note = "first" then (1 : ℚ) else 2)
      [tieRecordA, tieRecordB] [tieRecordA, tieRecordB] ∧ (0 : ℕ) < 1 :=
  ⟨⟨List.Perm.refl _, by decide⟩,
    C7_projection_monotone (fun r => if r.note = "first" then (1 : ℚ) else 2)
      [tieRecordA, tieRecordB] [tieRecordA, tieRecordB]
      ⟨List.Perm.refl _, by decide⟩ ⟨0, by decide⟩ ⟨1, by decide⟩ (by decide)⟩

/-- Two stops at distance 5 and 1 from the origin. -/
def farRecord : Record :=
  { flag := "reverse", address := "90 Pine St", reverse_address := "90 Pine St",
    member_name := "", comment := "", note := "", lat := 5, lon := 0 }

/-- See `farRecord`. -/
def nearRecord : Record :=
  { flag := "reverse", address := "2 Pine St", reverse_address := "2 Pine St",
    member_name := "", comment := "", note := "", lat := 1, lon := 0 }

/-- C8 (counterexample): when the projection strategy faults and no start
point was drawn, the code does NOT return the original input order — since
the enclosing block runs only when a polygon exists, `fallback_sort` sorts
by distance to the polygon's centroid: a far-then-near input comes out
near-then-far, a different order than the input. -/
theorem C8_counterexample :
    RouteSortRel (some (fun _ => Except.error "projection failed"))
      none (some ((0 : ℚ), (0 : ℚ)))
      [farRecord, nearRecord] [nearRecord, farRecord] true ∧
    ¬ RouteSortRel (some (fun _ => Except.error "projection failed"))
      none (some ((0 : ℚ), (0 : ℚ)))
      [farRecord, nearRecord] [farRecord, nearRecord] true ∧
    ([nearRecord, farRecord] : List Record) ≠ [farRecord, nearRecord] := by
  refine ⟨?_, ?_, by decide⟩
  · refine Or.inr ⟨⟨farRecord, List.mem_cons_self _ _, "projection failed", rfl⟩,
      ?_, rfl⟩
    show SortsTo (fun r => distSq r ((0 : ℚ), (0 : ℚ)))
      [farRecord, nearRecord] [nearRecord, farRecord]
    refine ⟨List.Perm.swap nearRecord farRecord [], ?_⟩
    show List.Pairwise _ [nearRecord, farRecord]
    refine List.Pairwise.cons ?_ (List.pairwise_singleton _ _)
    intro b hb
    rcases List.mem_singleton.mp hb with rfl
    show distSq nearRecord ((0 : ℚ), (0 : ℚ)) ≤ distSq farRecord ((0 : ℚ), (0 : ℚ))
    norm_num [distSq, nearRecord, farRecord]
  · intro h
    rcases h with ⟨⟨keyf, hok, _⟩, _⟩ | ⟨_, hfb, _⟩
    · have := hok farRecord (List.mem_cons_self _ _)
      simp at this
    · have hfb2 : SortsTo (fun r => distSq r ((0 : ℚ), (0 : ℚ)))
          [farRecord, nearRecord] [farRecord, nearRecord] := hfb
      have hle := (List.pairwise_cons.mp hfb2.2).1 nearRecord
        (List.mem_singleton.mpr rfl)
      revert hle
      norm_num [distSq, nearRecord, farRecord]

/-- C8 (amended): when the route-projection strategy faults, the sequencer
does not abort: a warning is surfaced and the stops degrade to
`fallback_sort` order — ascending distance from the start point when one is
supplied, else from the polygon centroid when a polygon exists, else the
original input order — and the output is always a permutation of the input
(no stop is dropped). -/
theorem C8_fault_degrades (proj : Record → Except String ℚ)
    (startPt polyCentroid : Option Pt) (input output : List Record)
    (warned : Bool)
    (h : RouteSortRel (some proj) startPt polyCentroid input output warned)
    (r0 : Record) (m0 : String) (hr0 : r0 ∈ input)
    (hf : proj r0 = .error m0) :
    warned = true ∧ FallbackSortRel startPt polyCentroid input output ∧
    output.Perm input := by
  rcases h with ⟨⟨keyf, hok, _⟩, _⟩ | ⟨_, hfb, hw⟩
  · have := hok r0 hr0
    rw [hf] at this
    exact absurd this (by simp)
  · refine ⟨hw, hfb, ?_⟩
    unfold FallbackSortRel at hfb
    cases ht : fallbackTarget startPt polyCentroid with
    | none => rw [ht] at hfb; rw [hfb]
    | some p =>
      rw [ht] at hfb
      exact hfb.1.symm

/-- Concrete witness for `C8_fault_degrades`: a single faulting stop with no
start point but a polygon centroid. -/
theorem C8_fault_degrades_witness :
    (true = true) ∧
    FallbackSortRel none (some ((0 : ℚ), (0 : ℚ))) [nearRecord] [nearRecord] ∧
    ([nearRecord] : List Record).Perm [nearRecord] :=
  C8_fault_degrades (fun _ => Except.error "projection failed")
    none (some ((0 : ℚ), (0 : ℚ))) [nearRecord] [nearRecord] true
    (Or.inr ⟨⟨nearRecord, List.mem_cons_self _ _, "projection failed", rfl⟩,
      ⟨List.Perm.refl _, List.pairwise_singleton _ _⟩, rfl⟩)
    nearRecord "projection failed" (List.mem_cons_self _ _) rfl

end OceanApp
